import Mathlib

/-!
Verification of the organizational-hierarchy module (`src/organization.py`)
of the amazon-order-automation repository.

The module is three Python dataclasses — `Employee`, `Department`,
`Organization` — mutated in place through `add_employee` / `remove_employee`
/ `add_department` / `remove_department`, with lookup helpers.

Embedding notes (shallow, faithful to CPython semantics):

* Objects live in a heap: `State` maps `Nat` references to employee,
  department and organization records, and `Nat` references to Python
  `list` objects (a department's `_employees` field and an organization's
  `_departments` field hold a *reference* to a mutable list object, as in
  Python, so aliasing and `.copy()` are expressible).
* The three classes are `@dataclass`es, so `==` compares the field tuples
  (`__eq__` is value-based, not identity-based).  Python's
  `PyObject_RichCompareBool` applies an identity shortcut before calling
  `__eq__`, and nested `__eq__` calls consume interpreter stack, modelled
  with a `fuel` parameter; exhausted fuel (`none`) corresponds to
  `RecursionError`.  `x in lst` and `lst.remove(x)` scan left to right with
  exactly this comparison.
* All raises (`ValueError` in the source, named `ValidationError`,
  `DuplicateMembershipError`, `NotFoundError` by the spec) are modelled by
  a `PyError` constructor per raise site.  Because `remove_employee` /
  `remove_department` mutate the back-reference *before* calling
  `list.remove`, an operation can raise after mutating, so results are
  `Except (PyError × State) State`: the error case carries the state at
  raise time.
-/


namespace OrgModule

/-- Employee dataclass: `id`, `name`, `email`, `position`,
`department` (optional reference to a Department), `hire_date`
(datetime, modelled abstractly), `phone`. -/
structure EmployeeObj where
  id : String
  name : String
  email : String
  position : String
  department : Option Nat
  hire_date : Option Nat
  phone : Option String
deriving DecidableEq, Repr

/-- Department dataclass: `id`, `name`, `description`, `organization`
(optional reference to an Organization), `manager` (optional reference to
an Employee), `_employees` (reference to a Python list object). -/
structure DepartmentObj where
  id : String
  name : String
  description : String
  organization : Option Nat
  manager : Option Nat
  employees : Nat
deriving DecidableEq, Repr

/-- Organization dataclass: `id`, `name`, `description`, `industry`,
`founded_date`, `_departments` (reference to a Python list object). -/
structure OrganizationObj where
  id : String
  name : String
  description : String
  industry : Option String
  founded_date : Option Nat
  departments : Nat
deriving DecidableEq, Repr

/-- The Python heap: employee, department, organization objects and
mutable list objects, addressed by `Nat` references.  `nextList` is the
allocator for fresh list objects (created by `list.copy()`). -/
structure State where
  emps : Nat → EmployeeObj
  depts : Nat → DepartmentObj
  orgs : Nat → OrganizationObj
  lists : Nat → List Nat
  nextList : Nat

/-- In-place update of the employee object at reference `r`. -/
def State.setEmp (s : State) (r : Nat) (o : EmployeeObj) : State :=
  { s with emps := fun q => if q = r then o else s.emps q }

/-- In-place update of the department object at reference `r`. -/
def State.setDept (s : State) (r : Nat) (o : DepartmentObj) : State :=
  { s with depts := fun q => if q = r then o else s.depts q }

/-- In-place update of the organization object at reference `r`. -/
def State.setOrg (s : State) (r : Nat) (o : OrganizationObj) : State :=
  { s with orgs := fun q => if q = r then o else s.orgs q }

/-- In-place update of the list object at reference `r`. -/
def State.setList (s : State) (r : Nat) (l : List Nat) : State :=
  { s with lists := fun q => if q = r then l else s.lists q }

/-- One raise site per constructor.  `validation`, `duplicateMembership`
and `notFound` are the explicit `raise ValueError(...)` statements of the
source (the spec's `ValidationError`, `DuplicateMembershipError`,
`NotFoundError`); `listRemoveMiss` is the `ValueError` CPython's
`list.remove` raises when it finds no equal element; `recursionError` is
CPython's `RecursionError` from an unbounded `__eq__` chain. -/
inductive PyError where
  | validation
  | duplicateMembership
  | notFound
  | listRemoveMiss
  | recursionError
deriving DecidableEq, Repr

mutual

/-- Python equality on two Employee references, as used by `in` /
`list.remove` (`PyObject_RichCompareBool`): identity shortcut first, then
the dataclass `__eq__`, which compares the field tuple
`(id, name, email, position, department, hire_date, phone)` left to
right.  `none` models `RecursionError`. -/
def pyEmpEq (fuel : Nat) (s : State) (a b : Nat) : Option Bool :=
  if a = b then some true
  else
    match fuel with
    | 0 => none
    | g + 1 =>
      let x := s.emps a
      let y := s.emps b
      if x.id = y.id ∧ x.name = y.name ∧ x.email = y.email ∧
          x.position = y.position then
        match
          (match x.department, y.department with
           | none, none => some true
           | some r, some t => pyDeptEq g s r t
           | _, _ => some false) with
        | some true => some (decide (x.hire_date = y.hire_date ∧ x.phone = y.phone))
        | some false => some false
        | none => none
      else some false
termination_by structural fuel

/-- Python equality on two Department references: identity shortcut, then
the dataclass `__eq__` over
`(id, name, description, organization, manager, _employees)`; the list
field compares by list-object identity, then by length, then elementwise
with the employee comparison. -/
def pyDeptEq (fuel : Nat) (s : State) (a b : Nat) : Option Bool :=
  if a = b then some true
  else
    match fuel with
    | 0 => none
    | g + 1 =>
      let x := s.depts a
      let y := s.depts b
      if x.id = y.id ∧ x.name = y.name ∧ x.description = y.description then
        match
          (match x.organization, y.organization with
           | none, none => some true
           | some r, some t => pyOrgEq g s r t
           | _, _ => some false) with
        | some false => some false
        | none => none
        | some true =>
          match
            (match x.manager, y.manager with
             | none, none => some true
             | some r, some t => pyEmpEq g s r t
             | _, _ => some false) with
          | some false => some false
          | none => none
          | some true =>
            if x.employees = y.employees then some true
            else if (s.lists x.employees).length = (s.lists y.employees).length then
              pyEmpListEq g s (s.lists x.employees) (s.lists y.employees)
            else some false
      else some false
termination_by structural fuel

/-- Python equality on two Organization references: dataclass `__eq__`
over `(id, name, description, industry, founded_date, _departments)`. -/
def pyOrgEq (fuel : Nat) (s : State) (a b : Nat) : Option Bool :=
  if a = b then some true
  else
    match fuel with
    | 0 => none
    | g + 1 =>
      let x := s.orgs a
      let y := s.orgs b
      if x.id = y.id ∧ x.name = y.name ∧ x.description = y.description ∧
          x.industry = y.industry ∧ x.founded_date = y.founded_date then
        if x.departments = y.departments then some true
        else if (s.lists x.departments).length = (s.lists y.departments).length then
          pyDeptListEq g s (s.lists x.departments) (s.lists y.departments)
        else some false
      else some false
termination_by structural fuel

/-- Elementwise comparison of two employee lists of equal length
(Python `list.__eq__`). -/
def pyEmpListEq (fuel : Nat) (s : State) (xs ys : List Nat) : Option Bool :=
  match fuel with
  | 0 => none
  | g + 1 =>
    match xs, ys with
    | [], [] => some true
    | x :: xr, y :: yr =>
      match pyEmpEq g s x y with
      | some true => pyEmpListEq g s xr yr
      | some false => some false
      | none => none
    | _, _ => some false
termination_by structural fuel

/-- Elementwise comparison of two department lists of equal length
(Python `list.__eq__`). -/
def pyDeptListEq (fuel : Nat) (s : State) (xs ys : List Nat) : Option Bool :=
  match fuel with
  | 0 => none
  | g + 1 =>
    match xs, ys with
    | [], [] => some true
    | x :: xr, y :: yr =>
      match pyDeptEq g s x y with
      | some true => pyDeptListEq g s xr yr
      | some false => some false
      | none => none
    | _, _ => some false
termination_by structural fuel

end

/-- Left-to-right containment scan of a Python list with comparison
`cmp` (the loop of `list.__contains__`). -/
def scanContains (cmp : Nat → Option Bool) : List Nat → Option Bool
  | [] => some false
  | x :: r =>
    match cmp x with
    | some true => some true
    | some false => scanContains cmp r
    | none => none

/-- Left-to-right scan of `list.remove`: `some (some l)` removes the first
element comparing equal, `some none` is the miss (CPython raises
`ValueError: list.remove(x): x not in list`), `none` is `RecursionError`. -/
def scanRemoveFirst (cmp : Nat → Option Bool) : List Nat → Option (Option (List Nat))
  | [] => some none
  | x :: r =>
    match cmp x with
    | some true => some (some r)
    | some false => (scanRemoveFirst cmp r).map (Option.map (fun l => x :: l))
    | none => none

/-- Python `e in lst` for an employee list. -/
def pyListContainsEmp (fuel : Nat) (s : State) (xs : List Nat) (e : Nat) : Option Bool :=
  scanContains (fun x => pyEmpEq fuel s x e) xs

/-- Python `lst.remove(e)` scan for an employee list. -/
def pyListRemoveFirstEmp (fuel : Nat) (s : State) (xs : List Nat) (e : Nat) :
    Option (Option (List Nat)) :=
  scanRemoveFirst (fun x => pyEmpEq fuel s x e) xs

/-- Python `d in lst` for a department list. -/
def pyListContainsDept (fuel : Nat) (s : State) (xs : List Nat) (d : Nat) : Option Bool :=
  scanContains (fun x => pyDeptEq fuel s x d) xs

/-- Python `lst.remove(d)` scan for a department list. -/
def pyListRemoveFirstDept (fuel : Nat) (s : State) (xs : List Nat) (d : Nat) :
    Option (Option (List Nat)) :=
  scanRemoveFirst (fun x => pyDeptEq fuel s x d) xs

/-- Employee construction (`__init__` + `__post_init__`): raises
`ValueError` when `id`, `name` or `email` is falsy (empty) or when `'@'`
is not in `email`; otherwise the object holds exactly the inputs. -/
def Employee.construct (i n em pos : String) (dep : Option Nat)
    (hd : Option Nat) (ph : Option String) : Except PyError EmployeeObj :=
  let e : EmployeeObj := ⟨i, n, em, pos, dep, hd, ph⟩
  if e.id = "" ∨ e.name = "" ∨ e.email = "" then .error .validation
  else if ¬ (e.email.data.contains '@' = true) then .error .validation
  else .ok e

/-- `Department.add_employee`: membership precheck with Python `in`, then
`employee.department = self` and `self._employees.append(employee)`. -/
def Department.add_employee (fuel : Nat) (s : State) (d e : Nat) :
    Except (PyError × State) State :=
  let lr := (s.depts d).employees
  match pyListContainsEmp fuel s (s.lists lr) e with
  | none => .error (.recursionError, s)
  | some true => .error (.duplicateMembership, s)
  | some false =>
    let s1 := s.setEmp e { s.emps e with department := some d }
    .ok (s1.setList lr (s1.lists lr ++ [e]))

/-- `Department.remove_employee`: membership precheck with Python
`not in`, then `employee.department = None`, then
`self._employees.remove(employee)` — note the removal scan runs on the
already-mutated employee. -/
def Department.remove_employee (fuel : Nat) (s : State) (d e : Nat) :
    Except (PyError × State) State :=
  let lr := (s.depts d).employees
  match pyListContainsEmp fuel s (s.lists lr) e with
  | none => .error (.recursionError, s)
  | some false => .error (.notFound, s)
  | some true =>
    let s1 := s.setEmp e { s.emps e with department := none }
    match pyListRemoveFirstEmp fuel s1 (s1.lists lr) e with
    | none => .error (.recursionError, s1)
    | some none => .error (.listRemoveMiss, s1)
    | some (some l) => .ok (s1.setList lr l)

/-- `Organization.add_department`: precheck, then
`department.organization = self` and append. -/
def Organization.add_department (fuel : Nat) (s : State) (o d : Nat) :
    Except (PyError × State) State :=
  let lr := (s.orgs o).departments
  match pyListContainsDept fuel s (s.lists lr) d with
  | none => .error (.recursionError, s)
  | some true => .error (.duplicateMembership, s)
  | some false =>
    let s1 := s.setDept d { s.depts d with organization := some o }
    .ok (s1.setList lr (s1.lists lr ++ [d]))

/-- `Organization.remove_department`: precheck, then
`department.organization = None`, then `self._departments.remove(...)`. -/
def Organization.remove_department (fuel : Nat) (s : State) (o d : Nat) :
    Except (PyError × State) State :=
  let lr := (s.orgs o).departments
  match pyListContainsDept fuel s (s.lists lr) d with
  | none => .error (.recursionError, s)
  | some false => .error (.notFound, s)
  | some true =>
    let s1 := s.setDept d { s.depts d with organization := none }
    match pyListRemoveFirstDept fuel s1 (s1.lists lr) d with
    | none => .error (.recursionError, s1)
    | some none => .error (.listRemoveMiss, s1)
    | some (some l) => .ok (s1.setList lr l)

/-- `Department.get_employees`: `self._employees.copy()` — allocates a
fresh list object with the same contents and returns its reference. -/
def Department.get_employees (s : State) (d : Nat) : Nat × State :=
  let lr := (s.depts d).employees
  (s.nextList, { s.setList s.nextList (s.lists lr) with nextList := s.nextList + 1 })

/-- `Department.get_employee_count`: `len(self._employees)`. -/
def Department.get_employee_count (s : State) (d : Nat) : Nat :=
  (s.lists (s.depts d).employees).length

/-- The `for employee in self._employees: if employee.id == employee_id`
loop of `Department.find_employee`. -/
def findEmpByIdInList (s : State) : List Nat → String → Option Nat
  | [], _ => none
  | x :: r, eid => if (s.emps x).id = eid then some x else findEmpByIdInList s r eid

/-- `Department.find_employee`: first member whose `id` equals the
argument, else `None`. -/
def Department.find_employee (s : State) (d : Nat) (eid : String) : Option Nat :=
  findEmpByIdInList s (s.lists (s.depts d).employees) eid

/-- `Organization.get_departments`: `self._departments.copy()`. -/
def Organization.get_departments (s : State) (o : Nat) : Nat × State :=
  let lr := (s.orgs o).departments
  (s.nextList, { s.setList s.nextList (s.lists lr) with nextList := s.nextList + 1 })

/-- `Organization.get_department_count`: `len(self._departments)`. -/
def Organization.get_department_count (s : State) (o : Nat) : Nat :=
  (s.lists (s.orgs o).departments).length

/-- The department loop of `Organization.find_employee`: delegate to each
department in order, return the first hit (`if employee:` — an Employee
object is always truthy, so this tests non-`None`). -/
def orgFindEmpLoop (s : State) : List Nat → String → Option Nat
  | [], _ => none
  | d :: r, eid =>
    match Department.find_employee s d eid with
    | some e => some e
    | none => orgFindEmpLoop s r eid

/-- `Organization.find_employee`. -/
def Organization.find_employee (s : State) (o : Nat) (eid : String) : Option Nat :=
  orgFindEmpLoop s (s.lists (s.orgs o).departments) eid

/-- Result-state projection: the heap after the call, whether it returned
normally or raised (Python state survives an exception). -/
def resState (r : Except (PyError × State) State) : State :=
  match r with
  | .ok s => s
  | .error p => p.2

/-- Which error, if any, a call raised. -/
def errKind (r : Except (PyError × State) State) : Option PyError :=
  match r with
  | .error p => some p.1
  | .ok _ => none

/-- Whether a call returned normally. -/
def exceptOk (r : Except (PyError × State) State) : Bool :=
  match r with
  | .ok _ => true
  | .error _ => false

/-- Spec-side definition (for the refinement claim C8, following the
spec's words): scan the departments in insertion order and within each
department the employees in insertion order — i.e. scan the concatenation
— and return the first employee whose `id` field equals the argument. -/
def specFindEmployee (s : State) (o : Nat) (eid : String) : Option Nat :=
  (((s.lists (s.orgs o).departments).map fun d => s.lists (s.depts d).employees).flatten).find?
    (fun e => (s.emps e).id == eid)

/-- A valid detached employee record (`Employee("E1", "Ann", "ann@x.com", "Dev")`). -/
def empAnn : EmployeeObj := ⟨"E1", "Ann", "ann@x.com", "Dev", none, none, none⟩

/-- The same field values with the `department` back-reference pointing at
department 0 (constructible directly: the dataclass constructor accepts
`department=`). -/
def empAnnAt0 : EmployeeObj := ⟨"E1", "Ann", "ann@x.com", "Dev", some 0, none, none⟩

/-- A heap with two empty departments (refs 0, 1 with list objects 0, 1)
and employee 0 detached. -/
def stFresh : State where
  emps := fun _ => empAnn
  depts := fun r => if r = 0 then ⟨"D1", "Eng", "", none, none, 0⟩
                    else ⟨"D2", "HR", "", none, none, 1⟩
  orgs := fun _ => ⟨"O1", "Org", "", none, none, 2⟩
  lists := fun _ => []
  nextList := 3

/-- A heap where department 0 contains employee 0, and employee 1 is a
distinct object with identical field values (including
`department = some 0`, as produced by
`Employee("E1", "Ann", "ann@x.com", "Dev", department=d0)`). -/
def stTwin : State where
  emps := fun _ => empAnnAt0
  depts := fun r => if r = 0 then ⟨"D1", "Eng", "", none, none, 0⟩
                    else ⟨"D2", "HR", "", none, none, 1⟩
  orgs := fun _ => ⟨"O1", "Org", "", none, none, 2⟩
  lists := fun r => if r = 0 then [0] else []
  nextList := 3

/-- A heap where department 0's collection is `[0, 1]`: employee 1 is a
member with `department = some 0`, employee 0 an earlier member with the
same field values except a cleared back-reference (reachable through the
public interface: add 0 to department 0, add 1 to department 0, add 0 to
department 1, remove 0 from department 1). -/
def stShadow : State where
  emps := fun r => if r = 0 then empAnn else empAnnAt0
  depts := fun r => if r = 0 then ⟨"D1", "Eng", "", none, none, 0⟩
                    else ⟨"D2", "HR", "", none, none, 1⟩
  orgs := fun _ => ⟨"O1", "Org", "", none, none, 2⟩
  lists := fun r => if r = 0 then [0, 1] else []
  nextList := 3

/-- A heap where organization 0's collection is `[1, 0]`: department 0 is
a member with `organization = some 0`, department 1 an earlier member
with the same `id`/`name` and a cleared `organization` (reachable: add 1
then 0 to organization 0, add 1 to a second organization, remove it
there). -/
def stOrgTwin : State where
  emps := fun _ => empAnn
  depts := fun r => if r = 0 then ⟨"D1", "Sales", "", some 0, none, 6⟩
                    else ⟨"D1", "Sales", "", none, none, 5⟩
  orgs := fun _ => ⟨"O1", "Org", "", none, none, 2⟩
  lists := fun r => if r = 2 then [1, 0] else []
  nextList := 7

/-- A heap where department 0's collection is `[0, 1]` with two
field-distinct employees (normal situation). -/
def stPair : State where
  emps := fun r => if r = 0 then ⟨"E1", "Ann", "ann@x.com", "Dev", some 0, none, none⟩
                   else ⟨"E2", "Bob", "bob@x.com", "QA", some 0, none, none⟩
  depts := fun r => if r = 0 then ⟨"D1", "Eng", "", none, none, 0⟩
                    else ⟨"D2", "HR", "", none, none, 1⟩
  orgs := fun _ => ⟨"O1", "Org", "", none, none, 2⟩
  lists := fun r => if r = 0 then [0, 1] else []
  nextList := 3

/-- A normal organization: org 0 (collection object 2 = `[0, 1]`) with two
field-distinct departments; department 1 contains employee 0 (collection
object 1 = `[0]`). -/
def stPairOrg : State where
  emps := fun _ => ⟨"E1", "Ann", "ann@x.com", "Dev", some 1, none, none⟩
  depts := fun r => if r = 0 then ⟨"D1", "Eng", "", some 0, none, 0⟩
                    else ⟨"D2", "HR", "", some 0, none, 1⟩
  orgs := fun _ => ⟨"O1", "Org", "", none, none, 2⟩
  lists := fun r => if r = 2 then [0, 1] else if r = 1 then [0] else []
  nextList := 3

/-- One employee-membership API call, successful or raising (C1 quantifies
over sequences of `add_employee` / `remove_employee` calls; a raising call
also leaves a state — the one carried by the error).  The `addOk` step is
guarded: the added employee is in no collection object (freshly
constructed or fully removed). -/
inductive EmpStep : State → State → Prop where
  | addOk (fuel : Nat) (s : State) (d e : Nat) (s' : State) :
      (∀ l, e ∉ s.lists l) → Department.add_employee fuel s d e = .ok s' →
      EmpStep s s'
  | addErr (fuel : Nat) (s : State) (d e : Nat) (p : PyError × State) :
      Department.add_employee fuel s d e = .error p → EmpStep s p.2
  | removeOk (fuel : Nat) (s : State) (d e : Nat) (s' : State) :
      Department.remove_employee fuel s d e = .ok s' → EmpStep s s'
  | removeErr (fuel : Nat) (s : State) (d e : Nat) (p : PyError × State) :
      Department.remove_employee fuel s d e = .error p → EmpStep s p.2

/-- Exclusive membership, stated on the heap: every employee reference
occurs in at most one list object (hence in at most one department, as
long as two departments do not share their collection object). -/
def InAtMostOneList (s : State) : Prop :=
  ∀ e l1 l2, e ∈ s.lists l1 → e ∈ s.lists l2 → l1 = l2


section HelperLemmas

variable {s : State} {r q : Nat} {l : List Nat}

@[simp] theorem setList_lists_self (s : State) (r : Nat) (l : List Nat) :
    (s.setList r l).lists r = l := by simp [State.setList]

theorem setList_lists_ne (s : State) (l : List Nat) (h : q ≠ r) :
    (s.setList r l).lists q = s.lists q := by simp [State.setList, h]

@[simp] theorem setList_emps (s : State) (r : Nat) (l : List Nat) :
    (s.setList r l).emps = s.emps := rfl

@[simp] theorem setList_depts (s : State) (r : Nat) (l : List Nat) :
    (s.setList r l).depts = s.depts := rfl

@[simp] theorem setList_orgs (s : State) (r : Nat) (l : List Nat) :
    (s.setList r l).orgs = s.orgs := rfl

@[simp] theorem setEmp_lists (s : State) (r : Nat) (o : EmployeeObj) :
    (s.setEmp r o).lists = s.lists := rfl

@[simp] theorem setEmp_depts (s : State) (r : Nat) (o : EmployeeObj) :
    (s.setEmp r o).depts = s.depts := rfl

@[simp] theorem setEmp_orgs (s : State) (r : Nat) (o : EmployeeObj) :
    (s.setEmp r o).orgs = s.orgs := rfl

@[simp] theorem setEmp_emps_self (s : State) (r : Nat) (o : EmployeeObj) :
    (s.setEmp r o).emps r = o := by simp [State.setEmp]

theorem setEmp_emps_ne (s : State) (o : EmployeeObj) (h : q ≠ r) :
    (s.setEmp r o).emps q = s.emps q := by simp [State.setEmp, h]

@[simp] theorem setDept_lists (s : State) (r : Nat) (o : DepartmentObj) :
    (s.setDept r o).lists = s.lists := rfl

@[simp] theorem setDept_emps (s : State) (r : Nat) (o : DepartmentObj) :
    (s.setDept r o).emps = s.emps := rfl

@[simp] theorem setDept_orgs (s : State) (r : Nat) (o : DepartmentObj) :
    (s.setDept r o).orgs = s.orgs := rfl

@[simp] theorem setDept_depts_self (s : State) (r : Nat) (o : DepartmentObj) :
    (s.setDept r o).depts r = o := by simp [State.setDept]

theorem setDept_depts_ne (s : State) (o : DepartmentObj) (h : q ≠ r) :
    (s.setDept r o).depts q = s.depts q := by simp [State.setDept, h]

/-- The identity shortcut: a reference always compares equal to itself. -/
theorem pyEmpEq_self (fuel : Nat) (s : State) (e : Nat) :
    pyEmpEq fuel s e e = some true := by
  rw [pyEmpEq.eq_def]; simp

/-- The identity shortcut for departments. -/
theorem pyDeptEq_self (fuel : Nat) (s : State) (d : Nat) :
    pyDeptEq fuel s d d = some true := by
  rw [pyDeptEq.eq_def]; simp

/-- If the containment scan answered `False`, every element compared
`False`. -/
theorem scanContains_false {cmp : Nat → Option Bool} :
    ∀ {xs : List Nat}, scanContains cmp xs = some false →
      ∀ x ∈ xs, cmp x = some false := by
  intro xs
  induction xs with
  | nil => intro _ x hx; cases hx
  | cons a r ih =>
    intro h x hx
    rw [scanContains] at h
    rw [List.mem_cons] at hx
    rcases hc : cmp a with _ | b
    · rw [hc] at h; cases h
    · rcases b with _ | _
      · rw [hc] at h
        rcases hx with rfl | hx
        · exact hc
        · exact ih h x hx
      · rw [hc] at h; cases h

/-- If some element compares `True` and every earlier element compares
`False`, the scan answers `True`. -/
theorem scanContains_true_of {cmp : Nat → Option Bool} {e : Nat} :
    ∀ {xs : List Nat}, e ∈ xs → cmp e = some true →
      (∀ x ∈ xs, x ≠ e → cmp x = some false) →
      scanContains cmp xs = some true := by
  intro xs
  induction xs with
  | nil => intro h; cases h
  | cons a r ih =>
    intro hmem he hall
    rw [List.mem_cons] at hmem
    rw [scanContains]
    by_cases ha : a = e
    · subst ha; rw [he]
    · rw [hall a (List.mem_cons_self a r) ha]
      have hmem' : e ∈ r := hmem.resolve_left (fun h => ha h.symm)
      exact ih hmem' he (fun x hx => hall x (List.mem_cons_of_mem a hx))

/-- Under the same hypotheses, `list.remove` deletes exactly the first
occurrence of `e`, i.e. computes `xs.erase e`. -/
theorem scanRemoveFirst_erase {cmp : Nat → Option Bool} {e : Nat} :
    ∀ {xs : List Nat}, e ∈ xs → cmp e = some true →
      (∀ x ∈ xs, x ≠ e → cmp x = some false) →
      scanRemoveFirst cmp xs = some (some (xs.erase e)) := by
  intro xs
  induction xs with
  | nil => intro h; cases h
  | cons a r ih =>
    intro hmem he hall
    rw [List.mem_cons] at hmem
    rw [scanRemoveFirst]
    by_cases ha : a = e
    · subst ha; rw [he, List.erase_cons_head]
    · rw [hall a (List.mem_cons_self a r) ha]
      have hmem' : e ∈ r := hmem.resolve_left (fun h => ha h.symm)
      rw [ih hmem' he (fun x hx => hall x (List.mem_cons_of_mem a hx))]
      simp [List.erase_cons_tail, ha]

/-- Whatever `list.remove` leaves behind is a subset of the original
list. -/
theorem scanRemoveFirst_subset {cmp : Nat → Option Bool} :
    ∀ {xs l : List Nat}, scanRemoveFirst cmp xs = some (some l) →
      ∀ y ∈ l, y ∈ xs := by
  intro xs
  induction xs with
  | nil => intro l h; rw [scanRemoveFirst] at h; cases h
  | cons a r ih =>
    intro l h y hy
    rw [scanRemoveFirst] at h
    rcases hc : cmp a with _ | b
    · rw [hc] at h; cases h
    · rcases b with _ | _
      · rw [hc] at h
        rcases ho : scanRemoveFirst cmp r with _ | o
        · rw [ho] at h; cases h
        · rw [ho] at h
          rcases o with _ | l'
          · cases h
          · simp only [Option.map] at h
            injection h with h; injection h with h
            subst h
            rw [List.mem_cons] at hy
            rcases hy with rfl | hy
            · exact List.mem_cons_self y r
            · exact List.mem_cons_of_mem a (ih ho y hy)
      · rw [hc] at h
        injection h with h; injection h with h
        subst h
        exact List.mem_cons_of_mem a hy

end HelperLemmas


section OpLemmas

/-- `add_employee` when the membership precheck is `False`: the success
state, spelled out. -/
theorem add_employee_ok_of {fuel : Nat} {s : State} {d e : Nat}
    (h : pyListContainsEmp fuel s (s.lists (s.depts d).employees) e = some false) :
    Department.add_employee fuel s d e =
      .ok ((s.setEmp e { s.emps e with department := some d }).setList
        (s.depts d).employees (s.lists (s.depts d).employees ++ [e])) := by
  simp only [Department.add_employee]
  rw [h]
  rfl

/-- `add_employee` can only raise before mutating: an error result
carries the unchanged input state. -/
theorem add_employee_error_state {fuel : Nat} {s : State} {d e : Nat}
    {p : PyError × State}
    (h : Department.add_employee fuel s d e = .error p) : p.2 = s := by
  simp only [Department.add_employee] at h
  rcases hc : pyListContainsEmp fuel s (s.lists (s.depts d).employees) e with _ | b
  · rw [hc] at h; injection h with h; rw [← h]
  · rcases b with _ | _
    · rw [hc] at h; cases h
    · rw [hc] at h; injection h with h; rw [← h]

/-- `add_department` can only raise before mutating. -/
theorem add_department_error_state {fuel : Nat} {s : State} {o d : Nat}
    {p : PyError × State}
    (h : Organization.add_department fuel s o d = .error p) : p.2 = s := by
  simp only [Organization.add_department] at h
  rcases hc : pyListContainsDept fuel s (s.lists (s.orgs o).departments) d with _ | b
  · rw [hc] at h; injection h with h; rw [← h]
  · rcases b with _ | _
    · rw [hc] at h; cases h
    · rw [hc] at h; injection h with h; rw [← h]

/-- Whenever `remove_employee` raises, the collections (and the
department/organization objects) are untouched; only the argument's
`department` field may have been cleared. -/
theorem remove_employee_error_frame {fuel : Nat} {s : State} {d e : Nat}
    {p : PyError × State}
    (h : Department.remove_employee fuel s d e = .error p) :
    p.2.lists = s.lists ∧ p.2.depts = s.depts ∧ p.2.orgs = s.orgs := by
  simp only [Department.remove_employee] at h
  rcases hc : pyListContainsEmp fuel s (s.lists (s.depts d).employees) e with _ | b
  · rw [hc] at h; injection h with h; rw [← h]; exact ⟨rfl, rfl, rfl⟩
  · rcases b with _ | _
    · rw [hc] at h; injection h with h; rw [← h]; exact ⟨rfl, rfl, rfl⟩
    · rw [hc] at h
      rcases hr : pyListRemoveFirstEmp fuel
          (s.setEmp e { s.emps e with department := none })
          ((s.setEmp e { s.emps e with department := none }).lists
            (s.depts d).employees) e with _ | o
      · rw [hr] at h; injection h with h; rw [← h]; exact ⟨rfl, rfl, rfl⟩
      · rcases o with _ | l
        · rw [hr] at h; injection h with h; rw [← h]; exact ⟨rfl, rfl, rfl⟩
        · rw [hr] at h; cases h

/-- A `NotFoundError` from `remove_employee` comes from the precheck and
leaves the whole state unchanged. -/
theorem remove_employee_notFound_state {fuel : Nat} {s : State} {d e : Nat}
    {p : PyError × State}
    (h : Department.remove_employee fuel s d e = .error p)
    (hk : p.1 = .notFound) : p.2 = s := by
  simp only [Department.remove_employee] at h
  rcases hc : pyListContainsEmp fuel s (s.lists (s.depts d).employees) e with _ | b
  · rw [hc] at h; injection h with h; rw [← h] at hk; simp at hk
  · rcases b with _ | _
    · rw [hc] at h; injection h with h; rw [← h]
    · rw [hc] at h
      rcases hr : pyListRemoveFirstEmp fuel
          (s.setEmp e { s.emps e with department := none })
          ((s.setEmp e { s.emps e with department := none }).lists
            (s.depts d).employees) e with _ | o
      · rw [hr] at h; injection h with h; rw [← h] at hk; simp at hk
      · rcases o with _ | l
        · rw [hr] at h; injection h with h; rw [← h] at hk; simp at hk
        · rw [hr] at h; cases h

/-- Whenever `remove_department` raises, the collections and the employee
objects are untouched; only the argument's `organization` field may have
been cleared. -/
theorem remove_department_error_frame {fuel : Nat} {s : State} {o d : Nat}
    {p : PyError × State}
    (h : Organization.remove_department fuel s o d = .error p) :
    p.2.lists = s.lists ∧ p.2.emps = s.emps ∧ p.2.orgs = s.orgs := by
  simp only [Organization.remove_department] at h
  rcases hc : pyListContainsDept fuel s (s.lists (s.orgs o).departments) d with _ | b
  · rw [hc] at h; injection h with h; rw [← h]; exact ⟨rfl, rfl, rfl⟩
  · rcases b with _ | _
    · rw [hc] at h; injection h with h; rw [← h]; exact ⟨rfl, rfl, rfl⟩
    · rw [hc] at h
      rcases hr : pyListRemoveFirstDept fuel
          (s.setDept d { s.depts d with organization := none })
          ((s.setDept d { s.depts d with organization := none }).lists
            (s.orgs o).departments) d with _ | oo
      · rw [hr] at h; injection h with h; rw [← h]; exact ⟨rfl, rfl, rfl⟩
      · rcases oo with _ | l
        · rw [hr] at h; injection h with h; rw [← h]; exact ⟨rfl, rfl, rfl⟩
        · rw [hr] at h; cases h

/-- A `NotFoundError` from `remove_department` leaves the state
unchanged. -/
theorem remove_department_notFound_state {fuel : Nat} {s : State} {o d : Nat}
    {p : PyError × State}
    (h : Organization.remove_department fuel s o d = .error p)
    (hk : p.1 = .notFound) : p.2 = s := by
  simp only [Organization.remove_department] at h
  rcases hc : pyListContainsDept fuel s (s.lists (s.orgs o).departments) d with _ | b
  · rw [hc] at h; injection h with h; rw [← h] at hk; simp at hk
  · rcases b with _ | _
    · rw [hc] at h; injection h with h; rw [← h]
    · rw [hc] at h
      rcases hr : pyListRemoveFirstDept fuel
          (s.setDept d { s.depts d with organization := none })
          ((s.setDept d { s.depts d with organization := none }).lists
            (s.orgs o).departments) d with _ | oo
      · rw [hr] at h; injection h with h; rw [← h] at hk; simp at hk
      · rcases oo with _ | l
        · rw [hr] at h; injection h with h; rw [← h] at hk; simp at hk
        · rw [hr] at h; cases h

end OpLemmas


section FindEquivalence


theorem findEmpByIdInList_eq_find? (s : State) (eid : String) :
    ∀ xs : List Nat, findEmpByIdInList s xs eid = xs.find? (fun e => (s.emps e).id == eid) := by
  intro xs
  induction xs with
  | nil => rfl
  | cons a r ih =>
    rw [findEmpByIdInList, List.find?]
    by_cases h : (s.emps a).id = eid
    · simp [h]
    · simp only [if_neg h, ih]
      rw [show ((s.emps a).id == eid) = false by simp [h]]

theorem findEmpByIdInList_append (s : State) (eid : String) (xs ys : List Nat) :
    findEmpByIdInList s (xs ++ ys) eid =
      match findEmpByIdInList s xs eid with
      | some e => some e
      | none => findEmpByIdInList s ys eid := by
  induction xs with
  | nil => rfl
  | cons a r ih =>
    rw [List.cons_append, findEmpByIdInList, findEmpByIdInList]
    by_cases h : (s.emps a).id = eid
    · simp [h]
    · simp only [if_neg h]
      exact ih

end FindEquivalence


/-- C8: Organization.find_employee delegation equivalence — for every
organization `o` and id string, `o.find_employee(id)` returns exactly
what a manual scan returns: departments in insertion order, employees in
insertion order within each, first employee whose `id` field equals the
argument, `none` when absent everywhere.  `specFindEmployee` is the
spec-side definition; the two agree on every state. -/
theorem C8_find_employee_delegation (s : State) (o : Nat) (eid : String) :
    Organization.find_employee s o eid = specFindEmployee s o eid := by
  unfold Organization.find_employee specFindEmployee
  rw [← findEmpByIdInList_eq_find?]
  generalize s.lists (s.orgs o).departments = ds
  induction ds with
  | nil => rfl
  | cons d r ih =>
    rw [orgFindEmpLoop, List.map_cons, List.flatten_cons, findEmpByIdInList_append]
    unfold Department.find_employee
    cases hf : findEmpByIdInList s (s.lists (s.depts d).employees) eid with
    | some e => rfl
    | none => exact ih

/-- C6: Employee construction raises ValidationError exactly when `id`,
`name` or `email` is empty or `email` lacks an `'@'` character; on any
valid input the constructed object's fields are exactly the inputs (with
the optional `department`, `hire_date`, `phone` holding whatever was
passed — `none` under the source's defaults). -/
theorem C6_employee_construct (i n em pos : String) (dep : Option Nat)
    (hd : Option Nat) (ph : Option String) :
    (Employee.construct i n em pos dep hd ph = .error .validation ↔
      (i = "" ∨ n = "" ∨ em = "" ∨ em.data.contains '@' = false)) ∧
    (¬ (i = "" ∨ n = "" ∨ em = "" ∨ em.data.contains '@' = false) →
      Employee.construct i n em pos dep hd ph = .ok ⟨i, n, em, pos, dep, hd, ph⟩) := by
  simp only [Employee.construct]
  by_cases h1 : i = "" ∨ n = "" ∨ em = ""
  · rw [if_pos h1]
    constructor
    · constructor
      · intro _
        rcases h1 with h | h | h
        · exact Or.inl h
        · exact Or.inr (Or.inl h)
        · exact Or.inr (Or.inr (Or.inl h))
      · intro _; rfl
    · intro hn
      exact absurd h1 (fun hc => hn (hc.imp id (fun hc => hc.imp id Or.inl)))
  · rw [if_neg h1]
    by_cases h2 : em.data.contains '@' = true
    · rw [if_neg (fun hc => hc h2)]
      constructor
      · constructor
        · intro hcon; cases hcon
        · intro hc
          rcases hc with h | h | h | h
          · exact absurd (Or.inl h) h1
          · exact absurd (Or.inr (Or.inl h)) h1
          · exact absurd (Or.inr (Or.inr h)) h1
          · rw [h2] at h; cases h
      · intro _; rfl
    · rw [if_pos h2]
      constructor
      · constructor
        · intro _
          refine Or.inr (Or.inr (Or.inr ?_))
          exact Bool.eq_false_iff.mpr h2
        · intro _; rfl
      · intro hn
        exact absurd (Or.inr (Or.inr (Or.inr (Bool.eq_false_iff.mpr h2)))) hn

/-- C6 witness: a concrete valid input and a concrete invalid one. -/
theorem C6_employee_construct_witness :
    Employee.construct "E1" "Ann" "a@b.com" "Dev" none none none =
      .ok ⟨"E1", "Ann", "a@b.com", "Dev", none, none, none⟩ ∧
    Employee.construct "E1" "Ann" "nodomain" "Dev" none none none = .error .validation := by
  constructor
  · exact (C6_employee_construct "E1" "Ann" "a@b.com" "Dev" none none none).2 (by decide)
  · exact (C6_employee_construct "E1" "Ann" "nodomain" "Dev" none none none).1.mpr (by decide)


section InversionLemmas

/-- Pointwise description of a list-object update. -/
theorem setList_lists_eq (s : State) (r q : Nat) (l : List Nat) :
    (s.setList r l).lists q = if q = r then l else s.lists q := by
  simp [State.setList]

/-- Inversion for a successful `add_employee`. -/
theorem add_employee_ok_inv {fuel : Nat} {s : State} {d e : Nat} {s' : State}
    (h : Department.add_employee fuel s d e = .ok s') :
    pyListContainsEmp fuel s (s.lists (s.depts d).employees) e = some false ∧
    s' = (s.setEmp e { s.emps e with department := some d }).setList
      (s.depts d).employees (s.lists (s.depts d).employees ++ [e]) := by
  simp only [Department.add_employee] at h
  rcases hc : pyListContainsEmp fuel s (s.lists (s.depts d).employees) e with _ | b
  · rw [hc] at h; cases h
  · rcases b with _ | _
    · rw [hc] at h
      injection h with h
      exact ⟨rfl, h.symm⟩
    · rw [hc] at h; cases h

/-- Inversion for a successful `remove_employee`: the precheck passed and
the final list is what the `list.remove` scan (run on the already-mutated
employee) produced. -/
theorem remove_employee_ok_inv {fuel : Nat} {s : State} {d e : Nat} {s' : State}
    (h : Department.remove_employee fuel s d e = .ok s') :
    ∃ l', pyListRemoveFirstEmp fuel
        (s.setEmp e { s.emps e with department := none })
        (s.lists (s.depts d).employees) e = some (some l') ∧
      s' = (s.setEmp e { s.emps e with department := none }).setList
        (s.depts d).employees l' := by
  simp only [Department.remove_employee] at h
  split at h
  · cases h
  · cases h
  · split at h
    · cases h
    · cases h
    · rename_i l' hr
      injection h with h
      exact ⟨l', hr, h.symm⟩

end InversionLemmas

/-- C4 (amended): when the Python membership test `e in d._employees` is
`False` (no member identical *or field-equal* to `e`), `add_employee`
succeeds: it sets `e.department` to `d`, appends `e` at the end of the
collection leaving every previous member in place, increases the count by
exactly 1, and `e` is a member afterwards. -/
theorem C4_amended_add_success (fuel : Nat) (s : State) (d e : Nat)
    (h : pyListContainsEmp fuel s (s.lists (s.depts d).employees) e = some false) :
    ∃ s', Department.add_employee fuel s d e = .ok s' ∧
      (s'.emps e).department = some d ∧
      s'.lists ((s.depts d).employees) = s.lists ((s.depts d).employees) ++ [e] ∧
      Department.get_employee_count s' d = Department.get_employee_count s d + 1 ∧
      e ∈ s'.lists ((s.depts d).employees) := by
  refine ⟨_, add_employee_ok_of h, ?_, ?_, ?_, ?_⟩
  · simp
  · simp
  · simp [Department.get_employee_count]
  · simp

/-- C4 witness: a concrete successful add on a fresh department. -/
theorem C4_amended_add_success_witness :
    ∃ s', Department.add_employee 5 stFresh 0 0 = .ok s' ∧
      (s'.emps 0).department = some 0 ∧
      s'.lists ((stFresh.depts 0).employees) = stFresh.lists ((stFresh.depts 0).employees) ++ [0] ∧
      Department.get_employee_count s' 0 = Department.get_employee_count stFresh 0 + 1 ∧
      0 ∈ s'.lists ((stFresh.depts 0).employees) :=
  C4_amended_add_success 5 stFresh 0 0 (by decide)

/-- C4 counterexample: employee 1 is not present (by identity) in
department 0's collection, yet `add_employee` does not succeed — the
value-equal member 0 makes the Python membership test `True`, so the call
raises `DuplicateMembershipError` (the source's `ValueError`). -/
theorem C4_counterexample :
    (1 ∉ stTwin.lists ((stTwin.depts 0).employees)) ∧
    exceptOk (Department.add_employee 5 stTwin 0 1) = false ∧
    errKind (Department.add_employee 5 stTwin 0 1) = some .duplicateMembership := by
  decide

/-- C10: adding an employee that is still a member of another department
succeeds and never cleans up the previous membership: afterwards
`e.department` is `d2`, `e` is appended to `d2`'s collection, while `d1`'s
collection still contains `e` and the `d1` object is unmodified.
Hypotheses: `e` is a member of `d1`, the two departments are distinct
objects with distinct collection objects, and `d2`'s Python membership
test for `e` is `False`. -/
theorem C10_add_keeps_old_membership (fuel : Nat) (s : State) (d1 d2 e : Nat)
    (hmem : e ∈ s.lists ((s.depts d1).employees))
    (hne : d1 ≠ d2)
    (hlr : (s.depts d1).employees ≠ (s.depts d2).employees)
    (h : pyListContainsEmp fuel s (s.lists ((s.depts d2).employees)) e = some false) :
    ∃ s', Department.add_employee fuel s d2 e = .ok s' ∧
      (s'.emps e).department = some d2 ∧
      s'.lists ((s.depts d2).employees) = s.lists ((s.depts d2).employees) ++ [e] ∧
      s'.lists ((s.depts d1).employees) = s.lists ((s.depts d1).employees) ∧
      e ∈ s'.lists ((s.depts d1).employees) ∧
      s'.depts d1 = s.depts d1 := by
  refine ⟨_, add_employee_ok_of h, by simp, by simp, ?_, ?_, rfl⟩
  · rw [setList_lists_eq, if_neg hlr]
    rfl
  · rw [setList_lists_eq, if_neg hlr]
    exact hmem

/-- C10 witness: employee 0 is in department 0; adding it to department 1
succeeds and leaves it in both collections. -/
theorem C10_add_keeps_old_membership_witness :
    ∃ s', Department.add_employee 5 stShadow 1 0 = .ok s' ∧
      (s'.emps 0).department = some 1 ∧
      s'.lists ((stShadow.depts 1).employees) = stShadow.lists ((stShadow.depts 1).employees) ++ [0] ∧
      s'.lists ((stShadow.depts 0).employees) = stShadow.lists ((stShadow.depts 0).employees) ∧
      0 ∈ s'.lists ((stShadow.depts 0).employees) ∧
      s'.depts 0 = stShadow.depts 0 :=
  C10_add_keeps_old_membership 5 stShadow 0 1 0 (by decide) (by decide) (by decide) (by decide)

/-- C3 (amended): duplicate rejection is by Python `==` on the dataclass
field tuple (with the interpreter's identity shortcut), not by object
identity alone: `add_employee` raises `DuplicateMembershipError` with the
state unchanged exactly when the membership scan answers `True`, and an
identity member always makes the scan answer non-`False` — but, as the
counterexample shows, a distinct field-equal object is rejected too. -/
theorem C3_amended_duplicate_by_value (fuel : Nat) (s : State) (d e : Nat) :
    (Department.add_employee fuel s d e = .error (.duplicateMembership, s) ↔
      pyListContainsEmp fuel s (s.lists (s.depts d).employees) e = some true) ∧
    (e ∈ s.lists (s.depts d).employees →
      pyListContainsEmp fuel s (s.lists (s.depts d).employees) e ≠ some false) := by
  constructor
  · constructor
    · intro h
      rcases hc : pyListContainsEmp fuel s (s.lists (s.depts d).employees) e with _ | b
      · simp only [Department.add_employee] at h; rw [hc] at h; simp at h
      · rcases b with _ | _
        · simp only [Department.add_employee] at h; rw [hc] at h; cases h
        · rfl
    · intro hc
      simp only [Department.add_employee]
      rw [hc]
  · intro hmem hfalse
    have hself : pyEmpEq fuel s e e = some false :=
      scanContains_false hfalse e hmem
    rw [pyEmpEq_self] at hself
    cases hself

/-- C3 witness: an identical second add raises with no state change. -/
theorem C3_amended_duplicate_by_value_witness :
    Department.add_employee 5 stTwin 0 0 = .error (.duplicateMembership, stTwin) :=
  (C3_amended_duplicate_by_value 5 stTwin 0 0).1.mpr (by decide)

/-- C3 counterexample: employee 1 is a distinct object, not present (by
identity) in department 0's collection, whose fields equal member 0's
(it is constructible directly via the dataclass constructor) — and the
add is rejected as a duplicate, refuting "a distinct Employee object
whose fields happen to equal those of a member is not a duplicate and is
accepted". -/
theorem C3_counterexample :
    (1 ∉ stTwin.lists ((stTwin.depts 0).employees)) ∧
    Employee.construct "E1" "Ann" "ann@x.com" "Dev" (some 0) none none = .ok (stTwin.emps 1) ∧
    errKind (Department.add_employee 5 stTwin 0 1) = some .duplicateMembership := by
  refine ⟨by decide, rfl, by decide⟩


/-- C2 (amended): failure atomicity holds for both add operations and for
every precheck (`NotFoundError`) raise of the remove operations — state
fully unchanged — and every raise of any of the four operations leaves
every collection, every department and organization object untouched; but
a remove whose precheck passed through a field-equality match can raise
from the underlying `list.remove` after the argument's back-reference was
already cleared, so only that back-reference may differ.  A second add of
an employee the membership scan already finds raises
`DuplicateMembershipError` with the state (hence the count) unchanged. -/
theorem C2_amended_atomicity :
    (∀ (fuel : Nat) (s : State) (d e : Nat) (p : PyError × State),
      Department.add_employee fuel s d e = .error p → p.2 = s) ∧
    (∀ (fuel : Nat) (s : State) (o d : Nat) (p : PyError × State),
      Organization.add_department fuel s o d = .error p → p.2 = s) ∧
    (∀ (fuel : Nat) (s : State) (d e : Nat) (p : PyError × State),
      Department.remove_employee fuel s d e = .error p →
        p.2.lists = s.lists ∧ p.2.depts = s.depts ∧ p.2.orgs = s.orgs) ∧
    (∀ (fuel : Nat) (s : State) (d e : Nat) (p : PyError × State),
      Department.remove_employee fuel s d e = .error p → p.1 = .notFound → p.2 = s) ∧
    (∀ (fuel : Nat) (s : State) (o d : Nat) (p : PyError × State),
      Organization.remove_department fuel s o d = .error p →
        p.2.lists = s.lists ∧ p.2.emps = s.emps ∧ p.2.orgs = s.orgs) ∧
    (∀ (fuel : Nat) (s : State) (o d : Nat) (p : PyError × State),
      Organization.remove_department fuel s o d = .error p → p.1 = .notFound → p.2 = s) ∧
    (∀ (fuel : Nat) (s : State) (d e : Nat),
      pyListContainsEmp fuel s (s.lists (s.depts d).employees) e = some true →
        Department.add_employee fuel s d e = .error (.duplicateMembership, s)) := by
  refine ⟨?_, ?_, ?_, ?_, ?_, ?_, ?_⟩
  · intro fuel s d e p h; exact add_employee_error_state h
  · intro fuel s o d p h; exact add_department_error_state h
  · intro fuel s d e p h; exact remove_employee_error_frame h
  · intro fuel s d e p h hk; exact remove_employee_notFound_state h hk
  · intro fuel s o d p h; exact remove_department_error_frame h
  · intro fuel s o d p h hk; exact remove_department_notFound_state h hk
  · intro fuel s d e h
    simp only [Department.add_employee]
    rw [h]

/-- C2 witness: the concrete duplicate second add raises and carries the
unchanged state. -/
theorem C2_amended_atomicity_witness :
    Department.add_employee 5 stTwin 0 0 = .error (.duplicateMembership, stTwin) :=
  C2_amended_atomicity.2.2.2.2.2.2 5 stTwin 0 0 (by decide)

/-- C2 counterexample: `remove_employee` raises (the `ValueError` of
CPython's `list.remove`, here `listRemoveMiss`) yet the state has
changed — employee 1's `department` was `some 0` before the call and is
`none` at the raise.  The precheck matched member 0 by field equality;
clearing the back-reference then broke that equality, so the removal scan
found nothing. -/
theorem C2_counterexample :
    errKind (Department.remove_employee 5 stTwin 0 1) = some .listRemoveMiss ∧
    ((resState (Department.remove_employee 5 stTwin 0 1)).emps 1).department = none ∧
    (stTwin.emps 1).department = some 0 := by
  decide

/-- C5 (amended): `remove_employee` has the claimed postcondition —
`e.department` cleared, `e`'s occurrence deleted with the relative order
of the rest preserved (the result is `erase e`), `e` absent afterwards,
count decreased by exactly 1 — provided `e` occurs exactly once in the
collection and no *other* member is Python-field-equal to `e` either
before or after `e`'s back-reference is cleared (the counterexample shows
the claim fails without that proviso). -/
theorem C5_amended_remove_success (fuel : Nat) (s : State) (d e : Nat)
    (hmem : e ∈ s.lists ((s.depts d).employees))
    (hcount : (s.lists ((s.depts d).employees)).count e = 1)
    (hothers : ∀ x ∈ s.lists ((s.depts d).employees), x ≠ e →
      pyEmpEq fuel s x e = some false)
    (hothers2 : ∀ x ∈ s.lists ((s.depts d).employees), x ≠ e →
      pyEmpEq fuel (s.setEmp e { s.emps e with department := none }) x e = some false) :
    ∃ s', Department.remove_employee fuel s d e = .ok s' ∧
      (s'.emps e).department = none ∧
      s'.lists ((s.depts d).employees) = (s.lists ((s.depts d).employees)).erase e ∧
      e ∉ s'.lists ((s.depts d).employees) ∧
      Department.get_employee_count s' d + 1 = Department.get_employee_count s d := by
  have hcon : pyListContainsEmp fuel s (s.lists ((s.depts d).employees)) e = some true :=
    scanContains_true_of hmem (pyEmpEq_self fuel s e) hothers
  have hrem : pyListRemoveFirstEmp fuel (s.setEmp e { s.emps e with department := none })
      ((s.setEmp e { s.emps e with department := none }).lists ((s.depts d).employees)) e =
      some (some ((s.lists ((s.depts d).employees)).erase e)) :=
    scanRemoveFirst_erase hmem
      (pyEmpEq_self fuel (s.setEmp e { s.emps e with department := none }) e) hothers2
  refine ⟨(s.setEmp e { s.emps e with department := none }).setList
      ((s.depts d).employees) ((s.lists ((s.depts d).employees)).erase e),
    ?_, ?_, ?_, ?_, ?_⟩
  · simp only [Department.remove_employee]
    rw [hcon, hrem]
  · simp
  · simp
  · simp only [setList_lists_self]
    have h0 : ((s.lists ((s.depts d).employees)).erase e).count e = 0 := by
      rw [List.count_erase_self, hcount]
    exact (List.count_eq_zero).mp h0
  · simp only [Department.get_employee_count, setList_depts, setEmp_depts,
      setList_lists_self]
    rw [List.length_erase_of_mem hmem]
    have : 0 < (s.lists ((s.depts d).employees)).length := List.length_pos.mpr
      (fun hnil => by rw [hnil] at hmem; cases hmem)
    omega

/-- C5 witness: removing employee 1 from the two-member department of
`stPair` behaves exactly as specified. -/
theorem C5_amended_remove_success_witness :
    ∃ s', Department.remove_employee 5 stPair 0 1 = .ok s' ∧
      (s'.emps 1).department = none ∧
      s'.lists ((stPair.depts 0).employees) = (stPair.lists ((stPair.depts 0).employees)).erase 1 ∧
      1 ∉ s'.lists ((stPair.depts 0).employees) ∧
      Department.get_employee_count s' 0 + 1 = Department.get_employee_count stPair 0 :=
  C5_amended_remove_success 5 stPair 0 1 (by decide) (by decide) (by decide) (by decide)

/-- C5 counterexample: employee 1 is present (by identity) in
department 0's collection of `stShadow`, `remove_employee` succeeds — and
employee 1 is *still present* afterwards: the removal scan deleted the
earlier member 0, which after the back-reference clearing compared
field-equal to employee 1.  This refutes "e is absent from
d.get_employees()" (and the order-preservation reading in which exactly
`e` is taken out). -/
theorem C5_counterexample :
    (1 ∈ stShadow.lists ((stShadow.depts 0).employees)) ∧
    exceptOk (Department.remove_employee 5 stShadow 0 1) = true ∧
    1 ∈ (resState (Department.remove_employee 5 stShadow 0 1)).lists
      ((stShadow.depts 0).employees) ∧
    0 ∉ (resState (Department.remove_employee 5 stShadow 0 1)).lists
      ((stShadow.depts 0).employees) := by
  decide


/-- C7 (amended): under the provisos that `d` occurs exactly once in the
organization's collection and no other member department is
Python-field-equal to `d` before or after its `organization`
back-reference is cleared, `remove_department` succeeds, clears
`d.organization`, deletes `d`'s occurrence from the collection — and, as
the claim states, performs no cascade: every employee object in the heap
is untouched (so members of `d` keep `department = d`), `d` keeps the
same employee collection object, and that collection's contents are
unchanged.  (Without the provisos the counterexample shows the removal
can delete a different, field-equal department.) -/
theorem C7_amended_remove_department (fuel : Nat) (s : State) (o d : Nat)
    (hmem : d ∈ s.lists ((s.orgs o).departments))
    (hcount : (s.lists ((s.orgs o).departments)).count d = 1)
    (hothers : ∀ x ∈ s.lists ((s.orgs o).departments), x ≠ d →
      pyDeptEq fuel s x d = some false)
    (hothers2 : ∀ x ∈ s.lists ((s.orgs o).departments), x ≠ d →
      pyDeptEq fuel (s.setDept d { s.depts d with organization := none }) x d = some false) :
    ∃ s', Organization.remove_department fuel s o d = .ok s' ∧
      (s'.depts d).organization = none ∧
      s'.lists ((s.orgs o).departments) = (s.lists ((s.orgs o).departments)).erase d ∧
      d ∉ s'.lists ((s.orgs o).departments) ∧
      s'.emps = s.emps ∧
      (s'.depts d).employees = (s.depts d).employees ∧
      ((s.depts d).employees ≠ (s.orgs o).departments →
        s'.lists ((s.depts d).employees) = s.lists ((s.depts d).employees)) := by
  have hcon : pyListContainsDept fuel s (s.lists ((s.orgs o).departments)) d = some true :=
    scanContains_true_of hmem (pyDeptEq_self fuel s d) hothers
  have hrem : pyListRemoveFirstDept fuel (s.setDept d { s.depts d with organization := none })
      ((s.setDept d { s.depts d with organization := none }).lists ((s.orgs o).departments)) d =
      some (some ((s.lists ((s.orgs o).departments)).erase d)) :=
    scanRemoveFirst_erase hmem
      (pyDeptEq_self fuel (s.setDept d { s.depts d with organization := none }) d) hothers2
  refine ⟨(s.setDept d { s.depts d with organization := none }).setList
      ((s.orgs o).departments) ((s.lists ((s.orgs o).departments)).erase d),
    ?_, ?_, ?_, ?_, rfl, ?_, ?_⟩
  · simp only [Organization.remove_department]
    rw [hcon, hrem]
  · simp
  · simp
  · simp only [setList_lists_self]
    have h0 : ((s.lists ((s.orgs o).departments)).erase d).count d = 0 := by
      rw [List.count_erase_self, hcount]
    exact (List.count_eq_zero).mp h0
  · simp
  · intro hne
    rw [setList_lists_eq, if_neg hne]
    rfl

/-- C7 witness: a normal organization `stPairOrg` with two field-distinct
departments; removing department 1 behaves exactly as specified. -/
theorem C7_amended_remove_department_witness :
    ∃ s', Organization.remove_department 5 stPairOrg 0 1 = .ok s' ∧
      (s'.depts 1).organization = none ∧
      s'.lists ((stPairOrg.orgs 0).departments) =
        (stPairOrg.lists ((stPairOrg.orgs 0).departments)).erase 1 ∧
      1 ∉ s'.lists ((stPairOrg.orgs 0).departments) ∧
      s'.emps = stPairOrg.emps ∧
      (s'.depts 1).employees = (stPairOrg.depts 1).employees ∧
      ((stPairOrg.depts 1).employees ≠ (stPairOrg.orgs 0).departments →
        s'.lists ((stPairOrg.depts 1).employees) =
          stPairOrg.lists ((stPairOrg.depts 1).employees)) :=
  C7_amended_remove_department 5 stPairOrg 0 1 (by decide) (by decide) (by decide) (by decide)

/-- C7 counterexample: department 0 is present (by identity) in
organization 0's collection of `stOrgTwin`, `remove_department` succeeds,
but department 0 is *still in* the collection afterwards: clearing its
`organization` made it field-equal to the earlier member 1, which the
removal scan deleted instead.  This refutes "removes d from o's
collection". -/
theorem C7_counterexample :
    (0 ∈ stOrgTwin.lists ((stOrgTwin.orgs 0).departments)) ∧
    exceptOk (Organization.remove_department 5 stOrgTwin 0 0) = true ∧
    0 ∈ (resState (Organization.remove_department 5 stOrgTwin 0 0)).lists
      ((stOrgTwin.orgs 0).departments) := by
  decide


/-- A guarded employee-membership step preserves exclusivity. -/
theorem empStep_preserves {s s' : State} (hstep : EmpStep s s')
    (hinv : InAtMostOneList s) : InAtMostOneList s' := by
  cases hstep with
  | addOk fuel s d e s' hguard hok =>
    obtain ⟨-, hs'⟩ := add_employee_ok_inv hok
    subst hs'
    intro y l1 l2 h1 h2
    rw [setList_lists_eq] at h1 h2
    simp only [setEmp_lists] at h1 h2
    by_cases hl1 : l1 = (s.depts d).employees <;>
      by_cases hl2 : l2 = (s.depts d).employees
    · rw [hl1, hl2]
    · rw [if_pos hl1] at h1
      rw [if_neg hl2] at h2
      rcases List.mem_append.mp h1 with h1 | h1
      · rw [hl1]; exact hinv y _ l2 h1 h2
      · rw [List.mem_singleton] at h1
        subst h1
        exact absurd h2 (hguard l2)
    · rw [if_neg hl1] at h1
      rw [if_pos hl2] at h2
      rcases List.mem_append.mp h2 with h2 | h2
      · rw [hl2]; exact hinv y l1 _ h1 h2
      · rw [List.mem_singleton] at h2
        subst h2
        exact absurd h1 (hguard l1)
    · rw [if_neg hl1] at h1
      rw [if_neg hl2] at h2
      exact hinv y l1 l2 h1 h2
  | addErr fuel s d e p herr =>
    rw [add_employee_error_state herr]
    exact hinv
  | removeOk fuel s d e s' hok =>
    obtain ⟨l', hr, hs'⟩ := remove_employee_ok_inv hok
    subst hs'
    intro y l1 l2 h1 h2
    rw [setList_lists_eq] at h1 h2
    simp only [setEmp_lists] at h1 h2
    have h1' : y ∈ s.lists l1 := by
      by_cases hl1 : l1 = (s.depts d).employees
      · rw [if_pos hl1] at h1
        rw [hl1]
        exact scanRemoveFirst_subset hr y h1
      · rw [if_neg hl1] at h1
        exact h1
    have h2' : y ∈ s.lists l2 := by
      by_cases hl2 : l2 = (s.depts d).employees
      · rw [if_pos hl2] at h2
        rw [hl2]
        exact scanRemoveFirst_subset hr y h2
      · rw [if_neg hl2] at h2
        exact h2
    exact hinv y l1 l2 h1' h2'
  | removeErr fuel s d e p herr =>
    intro y l1 l2 h1 h2
    rw [(remove_employee_error_frame herr).1] at h1 h2
    exact hinv y l1 l2 h1 h2

/-- C1 counterexample: from a heap with employee 0 detached and two empty
departments, `add_employee` succeeds into department 0 and then again
into department 1 — afterwards employee 0 appears in the internal
collections of both (distinct) departments simultaneously, refuting
exclusive membership for reachable states. -/
theorem C1_counterexample :
    exceptOk (Department.add_employee 5 stFresh 0 0) = true ∧
    exceptOk (Department.add_employee 5
      (resState (Department.add_employee 5 stFresh 0 0)) 1 0) = true ∧
    (0 : Nat) ≠ 1 ∧
    ((resState (Department.add_employee 5
        (resState (Department.add_employee 5 stFresh 0 0)) 1 0)).depts 0).employees ≠
      ((resState (Department.add_employee 5
        (resState (Department.add_employee 5 stFresh 0 0)) 1 0)).depts 1).employees ∧
    0 ∈ (resState (Department.add_employee 5
        (resState (Department.add_employee 5 stFresh 0 0)) 1 0)).lists
      (((resState (Department.add_employee 5
        (resState (Department.add_employee 5 stFresh 0 0)) 1 0)).depts 0).employees) ∧
    0 ∈ (resState (Department.add_employee 5
        (resState (Department.add_employee 5 stFresh 0 0)) 1 0)).lists
      (((resState (Department.add_employee 5
        (resState (Department.add_employee 5 stFresh 0 0)) 1 0)).depts 1).employees) := by
  decide

/-- C1 (amended): exclusivity does hold for every state reachable from an
all-empty heap through employee-membership calls in which each successful
add attaches an employee currently in *no* collection: then each employee
belongs to at most one collection object at a time.  (As originally
stated — without the guard — the claim is false: adding an attached
employee, which the code permits, puts it in two collections; see the
counterexample.) -/
theorem C1_amended_exclusivity (s0 s : State) (h0 : ∀ l, s0.lists l = [])
    (hr : Relation.ReflTransGen EmpStep s0 s) : InAtMostOneList s := by
  induction hr with
  | refl =>
    intro y l1 l2 h1 _
    rw [h0 l1] at h1
    cases h1
  | tail hst hstep ih => exact empStep_preserves hstep ih

/-- C1 witness: a concrete guarded add from the all-empty heap, after
which the invariant holds. -/
theorem C1_amended_exclusivity_witness :
    InAtMostOneList (resState (Department.add_employee 5 stFresh 0 0)) :=
  C1_amended_exclusivity stFresh _ (fun _ => rfl)
    (Relation.ReflTransGen.single
      (EmpStep.addOk 5 stFresh 0 0 _ (fun _ => List.not_mem_nil 0) rfl))


/-- The id-scan only reads employee objects, so it is stable under changes
elsewhere in the heap. -/
theorem findEmpByIdInList_congr {s' s : State} (h : s'.emps = s.emps) :
    ∀ (xs : List Nat) (eid : String),
      findEmpByIdInList s' xs eid = findEmpByIdInList s xs eid := by
  intro xs eid
  induction xs with
  | nil => rfl
  | cons a r ih =>
    rw [findEmpByIdInList, findEmpByIdInList, h, ih]

/-- The organization-level employee scan only reads employee objects,
department objects, and the departments' collection objects. -/
theorem orgFindEmpLoop_congr {s' s : State} (hemps : s'.emps = s.emps)
    (hdepts : s'.depts = s.depts) :
    ∀ (ds : List Nat) (eid : String),
      (∀ q ∈ ds, s'.lists ((s.depts q).employees) = s.lists ((s.depts q).employees)) →
      orgFindEmpLoop s' ds eid = orgFindEmpLoop s ds eid := by
  intro ds eid
  induction ds with
  | nil => intro _; rfl
  | cons a r ih =>
    intro hl
    rw [orgFindEmpLoop, orgFindEmpLoop]
    have hfind : Department.find_employee s' a eid = Department.find_employee s a eid := by
      unfold Department.find_employee
      rw [hdepts, hl a (List.mem_cons_self a r), findEmpByIdInList_congr hemps]
    rw [hfind]
    cases hf : Department.find_employee s a eid with
    | some x => rfl
    | none => exact ih (fun q hq => hl q (List.mem_cons_of_mem a hq))

/-- C9: `get_employees` / `get_departments` return a defensive copy — a
fresh list object with the members in insertion order — and arbitrarily
overwriting the returned list object afterwards leaves the container's
internal collection, its count, and later find results unchanged.
Hypotheses say the allocator reference is fresh (it is not any of the
collection objects in use). -/
theorem C9_defensive_copies (s : State) (d o : Nat)
    (hd : (s.depts d).employees ≠ s.nextList)
    (ho : (s.orgs o).departments ≠ s.nextList)
    (hall : ∀ q ∈ s.lists ((s.orgs o).departments), (s.depts q).employees ≠ s.nextList) :
    ((Department.get_employees s d).2.lists (Department.get_employees s d).1 =
      s.lists ((s.depts d).employees)) ∧
    ((Department.get_employees s d).1 ≠
      ((Department.get_employees s d).2.depts d).employees) ∧
    (∀ newl : List Nat,
      (((Department.get_employees s d).2.setList (Department.get_employees s d).1 newl).lists
        ((((Department.get_employees s d).2.setList
            (Department.get_employees s d).1 newl).depts d).employees) =
        s.lists ((s.depts d).employees)) ∧
      Department.get_employee_count
        ((Department.get_employees s d).2.setList (Department.get_employees s d).1 newl) d =
        Department.get_employee_count s d ∧
      (∀ eid, Department.find_employee
        ((Department.get_employees s d).2.setList (Department.get_employees s d).1 newl) d eid =
        Department.find_employee s d eid)) ∧
    ((Organization.get_departments s o).2.lists (Organization.get_departments s o).1 =
      s.lists ((s.orgs o).departments)) ∧
    ((Organization.get_departments s o).1 ≠
      ((Organization.get_departments s o).2.orgs o).departments) ∧
    (∀ newl : List Nat,
      (((Organization.get_departments s o).2.setList
          (Organization.get_departments s o).1 newl).lists
        ((((Organization.get_departments s o).2.setList
            (Organization.get_departments s o).1 newl).orgs o).departments) =
        s.lists ((s.orgs o).departments)) ∧
      Organization.get_department_count
        ((Organization.get_departments s o).2.setList
          (Organization.get_departments s o).1 newl) o =
        Organization.get_department_count s o ∧
      (∀ eid, Organization.find_employee
        ((Organization.get_departments s o).2.setList
          (Organization.get_departments s o).1 newl) o eid =
        Organization.find_employee s o eid)) := by
  refine ⟨?_, ?_, ?_, ?_, ?_, ?_⟩
  · simp [Department.get_employees]
  · simp only [Department.get_employees]
    exact fun h => hd h.symm
  · intro newl
    refine ⟨?_, ?_, ?_⟩
    · simp only [Department.get_employees, setList_lists_eq, setList_depts]
      rw [if_neg hd, if_neg hd]
    · simp only [Department.get_employee_count, Department.get_employees,
        setList_lists_eq, setList_depts]
      rw [if_neg hd, if_neg hd]
    · intro eid
      unfold Department.find_employee
      have hemps2 : ((Department.get_employees s d).2.setList
          (Department.get_employees s d).1 newl).emps = s.emps := rfl
      rw [findEmpByIdInList_congr hemps2]
      simp only [Department.get_employees, setList_lists_eq, setList_depts]
      rw [if_neg hd, if_neg hd]
  · simp [Organization.get_departments]
  · simp only [Organization.get_departments]
    exact fun h => ho h.symm
  · intro newl
    refine ⟨?_, ?_, ?_⟩
    · simp only [Organization.get_departments, setList_lists_eq, setList_orgs]
      rw [if_neg ho, if_neg ho]
    · simp only [Organization.get_department_count, Organization.get_departments,
        setList_lists_eq, setList_orgs]
      rw [if_neg ho, if_neg ho]
    · intro eid
      unfold Organization.find_employee
      have hlists : ((Organization.get_departments s o).2.setList
          (Organization.get_departments s o).1 newl).lists
          (((((Organization.get_departments s o).2.setList
            (Organization.get_departments s o).1 newl)).orgs o).departments) =
          s.lists ((s.orgs o).departments) := by
        simp only [Organization.get_departments, setList_lists_eq, setList_orgs]
        rw [if_neg ho, if_neg ho]
      rw [hlists]
      refine orgFindEmpLoop_congr ?_ ?_ (s.lists ((s.orgs o).departments)) eid ?_
      · rfl
      · rfl
      · intro q hq
        simp only [Organization.get_departments, setList_lists_eq]
        rw [if_neg (hall q hq), if_neg (hall q hq)]

/-- C9 witness: overwriting the copy returned by `get_departments` with
`[7, 7]` does not change what `find_employee` returns. -/
theorem C9_defensive_copies_witness :
    Organization.find_employee ((Organization.get_departments stPairOrg 0).2.setList
      (Organization.get_departments stPairOrg 0).1 [7, 7]) 0 "E1" =
    Organization.find_employee stPairOrg 0 "E1" :=
  ((C9_defensive_copies stPairOrg 0 0 (by decide) (by decide) (by decide)).2.2.2.2.2
    [7, 7]).2.2 "E1"

end OrgModule
